import Mathlib

/-!
Shallow embedding of the ProjectSix chat-statistics analyzer.

Source files embedded here:
* `src/src/models/message.py` — the `Message` record and its `from_row`
  constructor over a raw positional database row (namespace `models` below).
* `src/src/analysis.py` — the `Analyzer` metric operations. Each Python
  method holding `self.messages` becomes a Lean function over
  `msgs : List Message`.

Modelling conventions:
* Python ints are `Int`/`Nat`; Python float division is exact `ℚ` division
  (the analyzer only divides sums/counts, so exact arithmetic models the
  intended values).
* `datetime.fromtimestamp(ts / 1000)` is modelled with a UTC clock: the
  calendar date of a millisecond timestamp is obtained from its epoch-day
  `Int.fdiv ts 86400000` via the standard civil-from-days conversion; the
  hour of day is `(Int.fdiv ts 3600000) % 24`. (CPython uses the local
  timezone here; the source leaves the timezone unspecified, so the
  embedding fixes UTC.)
* `collections.Counter(xs)` is `tally xs`: association list of
  `(key, count)` pairs in first-occurrence order, exactly the iteration
  order of a CPython `Counter`. `Counter.most_common(n)` is a stable sort
  by count descending followed by `take n` (`sortByCountDesc`).
* Python regex `\w` and `str.lower()` are modelled on their ASCII fragment
  (`Char.isAlphanum`, `Char.toLower`); the patterns the analyzer uses are
  ASCII, so this covers them.
* Metrics that write a per-metric file and return its name
  (`most_common_words`, `messages_per_hour`, `most_used_emojis`,
  `love_words_count`, `insult_words_count`, the frequency variations)
  are modelled by the data mapping they compute and write; the file I/O
  belongs to the external report sink.
* The keyword vocabularies `LANGUAGE_CONNECTORS`, `LOVE_WORDS`,
  `INSULT_WORDS` are imported by `analysis.py` from a `constants` module
  that is not part of the sources; the metrics that consume them take the
  vocabulary as an explicit parameter.
-/

namespace models

/-- Value stored in one column of a raw SQLite row: an integer, a string,
or NULL. -/
inductive RowVal : Type
  | int (i : Int)
  | str (s : String)
  | null
deriving DecidableEq, Inhabited

/-- Python truthiness (`bool(x)`) of a row value: `0`, `""` and `None`
are falsy, everything else truthy. -/
def RowVal.truthy : RowVal → Bool
  | .int i => i ≠ 0
  | .str s => s ≠ ""
  | .null => false

/-- The `Message` object exactly as `message.py` constructs it: the first
four fields store the raw values handed to the constructor; `from_me` is
coerced with `bool(from_me)`. -/
structure Message : Type where
  message_id : RowVal
  timestamp : RowVal
  text_data : RowVal
  message_type : RowVal
  from_me : Bool
deriving DecidableEq

/-- The `Message.__init__` constructor of `message.py`: stores its
arguments and converts `from_me` to a boolean via Python `bool`. -/
def Message.make (message_id timestamp text_data message_type from_me : RowVal) :
    Message :=
  ⟨message_id, timestamp, text_data, message_type, from_me.truthy⟩

/-- The `Message.from_row` static method: builds a `Message` from fixed
positions of a raw row (`row[0]`, `row[13]`, `row[17]`, `row[16]`,
`row[3]`). Python raises `IndexError` when the row is too short; that is
modelled by `none`. -/
def Message.from_row (row : List RowVal) : Option Message :=
  if h : 17 < row.length then
    some (Message.make (row.get ⟨0, by omega⟩) (row.get ⟨13, by omega⟩)
      (row.get ⟨17, by omega⟩) (row.get ⟨16, by omega⟩) (row.get ⟨3, by omega⟩))
  else
    none

end models

/-- The analyzer's typed view of a message record: `analysis.py` relies on
`timestamp` being an integer (milliseconds since epoch), `text_data` being
a string or `None`, `message_type` a small integer code and `from_me` a
boolean. -/
structure Message : Type where
  message_id : Int
  timestamp : Int
  text_data : Option String
  message_type : Nat
  from_me : Bool
deriving DecidableEq

instance : Inhabited Message := ⟨⟨0, 0, none, 0, false⟩⟩

/-- Python truthiness of `message.text_data`: `None` and the empty string
are falsy. Guards every `... for message in self.messages if
message.text_data` comprehension. -/
def hasTextData (m : Message) : Bool :=
  match m.text_data with
  | none => false
  | some s => s ≠ ""

/-- The text payload of a message, `""` when absent. Only ever used behind
the `hasTextData` guard. -/
def textOf (m : Message) : String := m.text_data.getD ""

/-- One step of `collections.Counter` construction: increment the count of
`x` if present, otherwise append `(x, 1)` (dict insertion order). -/
def tallyStep {α : Type} [DecidableEq α] (acc : List (α × Nat)) (x : α) :
    List (α × Nat) :=
  if acc.any (fun p => p.1 = x) then
    acc.map (fun p => if p.1 = x then (p.1, p.2 + 1) else p)
  else
    acc ++ [(x, 1)]

/-- `collections.Counter(xs)` as an association list in first-occurrence
key order. -/
def tally {α : Type} [DecidableEq α] (xs : List α) : List (α × Nat) :=
  xs.foldl tallyStep []

/-- Stable insertion of an entry into a count-descending list, placing it
after all existing entries of strictly greater count and before entries of
equal count that came later in the original order. -/
def insertByCountDesc {α : Type} (x : α × Nat) :
    List (α × Nat) → List (α × Nat)
  | [] => [x]
  | y :: ys => if y.2 ≤ x.2 then x :: y :: ys else y :: insertByCountDesc x ys

/-- Stable sort by count descending: the order `Counter.most_common`
produces (sorted by count, ties in insertion order). -/
def sortByCountDesc {α : Type} : List (α × Nat) → List (α × Nat)
  | [] => []
  | x :: xs => insertByCountDesc x (sortByCountDesc xs)

/-- Python `sum(xs) / len(xs) if xs else 0`. -/
def avgOrZero (xs : List ℚ) : ℚ :=
  if xs = [] then 0 else xs.sum / (xs.length : ℚ)

/-- Epoch day of a millisecond timestamp: the calendar day (UTC) in which
`datetime.fromtimestamp(ts / 1000)` falls. -/
def epochDayOf (ts : Int) : Int := Int.fdiv ts 86400000

/-- Civil (proleptic Gregorian) date of an epoch day, as
`(year, month, day)`: the standard days-to-civil conversion. Models
`strftime('%Y-%m-%d')` of the corresponding datetime. -/
def civilFromDays (z0 : Int) : Int × Nat × Nat :=
  let z := z0 + 719468
  let era := Int.fdiv z 146097
  let doe := (z - era * 146097).toNat
  let yoe := (doe - doe / 1460 + doe / 36524 - doe / 146096) / 365
  let y : Int := (yoe : Int) + era * 400
  let doy := doe - (365 * yoe + yoe / 4 - yoe / 100)
  let mp := (5 * doy + 2) / 153
  let d := doy - (153 * mp + 2) / 5 + 1
  let m := if mp < 10 then mp + 3 else mp - 9
  (if m ≤ 2 then y + 1 else y, m, d)

/-- Calendar date key of a message's timestamp: what
`datetime.fromtimestamp(message.timestamp / 1000).strftime('%Y-%m-%d')`
buckets by. -/
def dateKeyOf (ts : Int) : Int × Nat × Nat := civilFromDays (epochDayOf ts)

/-- Year-month key of a timestamp: `strftime('%Y-%m')`. -/
def monthKeyOf (ts : Int) : Int × Nat := ((dateKeyOf ts).1, (dateKeyOf ts).2.1)

/-- Weekday index of a timestamp (0 = Monday … 6 = Sunday), the bucket of
`strftime('%A')`: epoch day 0 (1970-01-01) was a Thursday, index 3. -/
def weekdayKeyOf (ts : Int) : Int := (epochDayOf ts + 3) % 7

/-- Hour of day (0–23) of a millisecond timestamp:
`datetime.fromtimestamp(ts / 1000).hour` under the UTC model. -/
def hourOf (ts : Int) : Int := (Int.fdiv ts 3600000) % 24

/-- Python `\w` on its ASCII fragment: alphanumeric or underscore. -/
def isWordChar (c : Char) : Bool := c.isAlphanum || c = '_'

/-- `re.findall(r'\w+', s)`: the maximal runs of word characters of `s`,
in order. Obtained by blanking the non-word characters and splitting. -/
def findallWords (s : String) : List String :=
  (((s.toList.map (fun c => if isWordChar c then c else ' ')).asString).split
    (fun c => c = ' ')).filter (fun w => w ≠ "")

/-- Python `str.split()` with no argument: split on whitespace runs,
dropping empty pieces. -/
def splitWhitespace (s : String) : List String :=
  (s.split Char.isWhitespace).filter (fun w => w ≠ "")

/-- ASCII `str.lower()`, the fragment the analyzer's patterns need. -/
def lowerString (s : String) : String := s.toLower

/-- Codepoints matched by the emoji regex
`[\U00010000-\U0010ffff]` of `analysis.py`: the supplementary planes. -/
def isEmojiChar (c : Char) : Bool := 0x10000 ≤ c.toNat && c.toNat ≤ 0x10FFFF

/-- `emoji_pattern.findall(text)`: the supplementary-plane codepoints of a
message's text, in order. -/
def emojiFindall (m : Message) : List Char := (textOf m).toList.filter isEmojiChar

/-- `Analyzer.total_messages`: `len(self.messages)`. -/
def total_messages (msgs : List Message) : Nat := msgs.length

/-- `Analyzer.messages_by_sender`: the pair
`(from_me_count, from_them_count)` where the second component is computed
as `len(self.messages) - from_me_count`, exactly as the source does. -/
def messages_by_sender (msgs : List Message) : Nat × Nat :=
  let from_me_count := msgs.countP (fun m => m.from_me)
  (from_me_count, msgs.length - from_me_count)

/-- `Analyzer.average_messages_per_day`: zeroed triple on the empty
sequence; otherwise `(general, me, them)` message counts divided by
`(end_date - start_date).days or 1`, where the day difference of the first
and last timestamps floors (`timedelta.days`) and a zero-day span becomes
one day. -/
def average_messages_per_day (msgs : List Message) : ℚ × ℚ × ℚ :=
  match msgs with
  | [] => (0, 0, 0)
  | first :: rest =>
      let lastMsg := rest.getLastD first
      let daysRaw : Int := Int.fdiv (lastMsg.timestamp - first.timestamp) 86400000
      let days : Int := if daysRaw = 0 then 1 else daysRaw
      let total : ℚ := ((first :: rest).length : Nat)
      let mine : ℚ := ((first :: rest).countP (fun m => m.from_me) : Nat)
      (total / (days : ℚ), mine / (days : ℚ), (total - mine) / (days : ℚ))

/-- `Analyzer.day_with_most_messages`: `Counter(dates).most_common(1)`,
i.e. the head of the count-descending stable ordering of the date tally;
`None` when the sequence is empty. -/
def day_with_most_messages (msgs : List Message) :
    Option ((Int × Nat × Nat) × Nat) :=
  (sortByCountDesc (tally (msgs.map (fun m => dateKeyOf m.timestamp)))).head?

/-- Python `min(d, key=d.get)` over an association list: the first key
(in iteration order) attaining the minimal count, paired with its count. -/
def minByCount {α : Type} : List (α × Nat) → Option (α × Nat)
  | [] => none
  | p :: rest => some (rest.foldl (fun best q => if q.2 < best.2 then q else best) p)

/-- `Analyzer.day_with_least_messages`: tally messages per calendar date,
drop buckets whose count is in `[0, 2]`, and return the surviving bucket
of minimal count (`None` when nothing survives). -/
def day_with_least_messages (msgs : List Message) :
    Option ((Int × Nat × Nat) × Nat) :=
  let day_counts := tally (msgs.map (fun m => dateKeyOf m.timestamp))
  let filtered_day_counts := day_counts.filter (fun p => !(p.2 == 0 || p.2 == 2))
  minByCount filtered_day_counts

/-- `Analyzer.most_common_words` (the data it writes to file): lowercase
and join the text payloads, tokenize on `\w+`, drop the
`LANGUAGE_CONNECTORS` stop words (here a parameter, since the constants
module is not in the sources), and keep the `num_words` most common. -/
def most_common_words (connectors : List String) (num_words : Nat)
    (msgs : List Message) : List (String × Nat) :=
  let words := (msgs.filter hasTextData).flatMap
    (fun m => findallWords (lowerString (textOf m)))
  let filtered_words := words.filter (fun w => ¬ w ∈ connectors)
  (sortByCountDesc (tally filtered_words)).take num_words

/-- `Analyzer.total_words_sent`: sum of `len(re.findall(r'\w+', text))`
over messages with text (no lowercasing in the source here). -/
def total_words_sent (msgs : List Message) : Nat :=
  ((msgs.filter hasTextData).map (fun m => (findallWords (textOf m)).length)).sum

/-- `Analyzer.messages_per_hour` (the data it writes to file): tally of
the hour-of-day of every message. -/
def messages_per_hour (msgs : List Message) : List (Int × Nat) :=
  tally (msgs.map (fun m => hourOf m.timestamp))

/-- `Analyzer.number_of_emojis`: total count of supplementary-plane
codepoints over the text payloads of messages with text. -/
def number_of_emojis (msgs : List Message) : Nat :=
  ((msgs.filter hasTextData).map (fun m => (emojiFindall m).length)).sum

/-- The extracted emoji list of `Analyzer.most_used_emojis`: every
supplementary-plane codepoint of every message with text, in order. -/
def extractedEmojis (msgs : List Message) : List Char :=
  (msgs.filter hasTextData).flatMap emojiFindall

/-- `Analyzer.most_used_emojis` (the data it writes to file):
`Counter(emojis).most_common(top_n)`. -/
def most_used_emojis (top_n : Nat) (msgs : List Message) : List (Char × Nat) :=
  (sortByCountDesc (tally (extractedEmojis msgs))).take top_n

/-- `Analyzer.photo_messages_count`: messages of type code 1 or 42. -/
def photo_messages_count (msgs : List Message) : Nat :=
  msgs.countP (fun m => m.message_type = 1 || m.message_type = 42)

/-- `Analyzer.sticker_messages_count`: messages of type code 20. -/
def sticker_messages_count (msgs : List Message) : Nat :=
  msgs.countP (fun m => m.message_type = 20)

/-- `Analyzer.audio_messages_count`: messages of type code 2. -/
def audio_messages_count (msgs : List Message) : Nat :=
  msgs.countP (fun m => m.message_type = 2)

/-- `Analyzer.video_messages_count`: messages of type code 3. -/
def video_messages_count (msgs : List Message) : Nat :=
  msgs.countP (fun m => m.message_type = 3)

/-- `Analyzer.call_count`: messages of type code 90. -/
def call_count (msgs : List Message) : Nat :=
  msgs.countP (fun m => m.message_type = 90)

/-- `Analyzer.location_shared_count`: messages of type code 5 or 16. -/
def location_shared_count (msgs : List Message) : Nat :=
  msgs.countP (fun m => m.message_type = 5 || m.message_type = 16)

/-- ASCII letter test, the characters `[a-z]` matches under
`re.IGNORECASE`. -/
def isAsciiLetter (c : Char) : Bool :=
  ('a' ≤ c && c ≤ 'z') || ('A' ≤ c && c ≤ 'Z')

/-- Case-insensitive literal match: does `pat` (given lowercase) match a
prefix of `s`? Returns the remainder on success. -/
def matchLitCI (pat : List Char) (s : List Char) : Option (List Char) :=
  match pat, s with
  | [], rest => some rest
  | _ :: _, [] => none
  | p :: ps, c :: cs => if c.toLower = p then matchLitCI ps cs else none

/-- Word boundary after a word character: the next character is absent or
a non-word character. -/
def boundaryAfter (rest : List Char) : Bool :=
  match rest with
  | [] => true
  | c :: _ => ¬ isWordChar c

/-- One attempt of `re.search` for the pattern
`\b(LIT[a-z]*|SHORT)\b` (case-insensitive) at the current position of the
text: `prevIsWord` tells whether the preceding character was a word
character (the leading boundary), `lit` and `short` are the two lowercase
alternatives. The greedy `[a-z]*` followed by `\b` succeeds exactly when,
after the maximal ASCII-letter run, a word boundary follows. -/
def attemptPhrase (lit short : List Char) (prevIsWord : Bool)
    (s : List Char) : Bool :=
  ¬ prevIsWord &&
    ((match matchLitCI lit s with
      | some rest => boundaryAfter (rest.dropWhile isAsciiLetter)
      | none => false) ||
     (match matchLitCI short s with
      | some rest => boundaryAfter rest
      | none => false))

/-- Scan of `re.search` over every start position of the text, tracking
whether the previous character is a word character. -/
def searchPhraseFrom (lit short : List Char) (prevIsWord : Bool) :
    List Char → Bool
  | [] => false
  | c :: rest =>
      attemptPhrase lit short prevIsWord (c :: rest) ||
        searchPhraseFrom lit short (isWordChar c) rest

/-- `bool(pattern.search(text))` for the morning/night patterns of
`good_morning_night_messages`. -/
def searchPhrase (lit short : String) (text : String) : Bool :=
  searchPhraseFrom lit.toList short.toList false text.toList

/-- Match of `re.compile(r'\b(Bom dia[a-z]*|bd)\b', re.IGNORECASE)`
against a message's text. -/
def matchesMorning (m : Message) : Bool :=
  hasTextData m && searchPhrase "bom dia" "bd" (textOf m)

/-- Match of `re.compile(r'\b(Boa noite[a-z]*|bn)\b', re.IGNORECASE)`
against a message's text. -/
def matchesNight (m : Message) : Bool :=
  hasTextData m && searchPhrase "boa noite" "bn" (textOf m)

/-- `Analyzer.good_morning_night_messages`: the pair
`(bom_dia, boa_noite)` of message-level counts — each message with text
contributes `bool(pattern.search(text))` to each sum. -/
def good_morning_night_messages (msgs : List Message) : Nat × Nat :=
  (msgs.countP matchesMorning, msgs.countP matchesNight)

/-- The consecutive message pairs `(last_message, message)` the
`average_response_time` loop visits. -/
def consecutivePairs (msgs : List Message) : List (Message × Message) :=
  msgs.zip msgs.tail

/-- The gap in seconds of one consecutive pair:
`(message.timestamp - last_message.timestamp) / 1000`. -/
def pairGapSeconds (pc : Message × Message) : ℚ :=
  ((pc.2.timestamp - pc.1.timestamp : Int) : ℚ) / 1000

/-- `Analyzer.average_response_time`: the triple `(general, me, them)`.
The loop records each consecutive gap, and additionally files it under
`my_response_times` when the current (second) message is from self, else
under `their_response_times`; each bucket is averaged, `0` when empty. -/
def average_response_time (msgs : List Message) : ℚ × ℚ × ℚ :=
  let pairs := consecutivePairs msgs
  let response_times := pairs.map pairGapSeconds
  let my_response_times := (pairs.filter (fun pc => pc.2.from_me)).map pairGapSeconds
  let their_response_times :=
    (pairs.filter (fun pc => !pc.2.from_me)).map pairGapSeconds
  (avgOrZero response_times, avgOrZero my_response_times,
    avgOrZero their_response_times)

/-- `Analyzer.love_words_count` (the data it writes to file): for every
message with text, lowercase and split on whitespace, and tally the
tokens that belong to the `LOVE_WORDS` vocabulary (a parameter, since the
constants module is not in the sources). -/
def love_words_count (love_words : List String) (msgs : List Message) :
    List (String × Nat) :=
  tally ((msgs.filter hasTextData).flatMap
    (fun m => (splitWhitespace (lowerString (textOf m))).filter
      (fun w => w ∈ love_words)))

/-- `Analyzer.insult_words_count` (the data it writes to file): same shape
as `love_words_count` over the `INSULT_WORDS` vocabulary. -/
def insult_words_count (insult_words : List String) (msgs : List Message) :
    List (String × Nat) :=
  tally ((msgs.filter hasTextData).flatMap
    (fun m => (splitWhitespace (lowerString (textOf m))).filter
      (fun w => w ∈ insult_words)))

/-- `Analyzer.weekday_frequency_variation` (the data it writes to file):
tally of the weekday of every message. -/
def weekday_frequency_variation (msgs : List Message) : List (Int × Nat) :=
  tally (msgs.map (fun m => weekdayKeyOf m.timestamp))

/-- `Analyzer.monthly_frequency_variation` (the data it writes to file):
tally of the year-month of every message. -/
def monthly_frequency_variation (msgs : List Message) : List ((Int × Nat) × Nat) :=
  tally (msgs.map (fun m => monthKeyOf m.timestamp))

/-- `Analyzer.daily_frequency_variation` (the data it writes to file):
tally of the calendar date of every message. -/
def daily_frequency_variation (msgs : List Message) :
    List ((Int × Nat × Nat) × Nat) :=
  tally (msgs.map (fun m => dateKeyOf m.timestamp))

/-- Spec-side reading of claim C1: the gap in seconds between message `i`
and message `i + 1` of the sequence — the elapsed seconds since the
immediately preceding message, regardless of who sent it. -/
def specGapSeconds (msgs : List Message) (i : Nat) : ℚ :=
  (((msgs.getD (i + 1) default).timestamp
      - (msgs.getD i default).timestamp : Int) : ℚ) / 1000

/-- Spec-side reading of claim C1: all consecutive gaps of the sequence,
one for every message after the first. -/
def specAllGaps (msgs : List Message) : List ℚ :=
  (List.range (msgs.length - 1)).map (specGapSeconds msgs)

/-- Spec-side reading of claim C1: the gaps attributed to the "me"
bucket — gap `i` belongs to "me" exactly when the current message
(message `i + 1`) is from self. -/
def specMyGaps (msgs : List Message) : List ℚ :=
  ((List.range (msgs.length - 1)).filter
    (fun i => (msgs.getD (i + 1) default).from_me)).map (specGapSeconds msgs)

/-- Spec-side reading of claim C1: the gaps attributed to the "them"
bucket — gap `i` belongs to "them" exactly when the current message
(message `i + 1`) is not from self. -/
def specTheirGaps (msgs : List Message) : List ℚ :=
  ((List.range (msgs.length - 1)).filter
    (fun i => !(msgs.getD (i + 1) default).from_me)).map (specGapSeconds msgs)

/-- Spec-side reading of claim C4: the day buckets of the conversation
that survive the exclusion of counts 0 and 2. -/
def survivingDayBuckets (msgs : List Message) : List ((Int × Nat × Nat) × Nat) :=
  (tally (msgs.map (fun m => dateKeyOf m.timestamp))).filter
    (fun p => !(p.2 == 0 || p.2 == 2))

/-- Spec-side reading of claim C7: the number of supplementary-plane
codepoints of one optional text payload, `0` for an absent payload. -/
def specEmojiCountOfText : Option String → Nat
  | none => 0
  | some s => (s.toList.filter isEmojiChar).length

/-- Total of the counts of a `(key, count)` association list. -/
def sumCounts {α : Type} (l : List (α × Nat)) : Nat :=
  (l.map (fun p => p.2)).sum

/-- First message of the two-message scenario of the spec:
`{t = 0 ms, from_self = true, text = "Bom dia!"}`. -/
def sampleMsg1 : Message := ⟨1, 0, some "Bom dia!", 0, true⟩

/-- Second message of the two-message scenario of the spec:
`{t = 60000 ms, from_self = false, text = "Boa noite"}`. -/
def sampleMsg2 : Message := ⟨2, 60000, some "Boa noite", 0, false⟩

/-- A message whose text holds a supplementary-plane emoji and a BMP
heart: the emoji-counting scenario of the spec. -/
def sampleEmojiMsg : Message := ⟨3, 0, some "I love you ❤️😀", 0, true⟩

/-- A message whose text is entirely below U+10000. -/
def sampleBmpMsg : Message := ⟨4, 0, some "oi ❤ tudo bem?", 0, false⟩

/-- A message with repeated emojis, for the emoji tally witness. -/
def sampleRepeatEmojiMsg : Message := ⟨5, 0, some "😀😁😀", 0, true⟩

/-- Four messages over two calendar days: one message on 1970-01-01 and
three on 1970-01-06, so the day tally is `[(day0, 1), (day5, 3)]`. -/
def sampleWeekMsgs : List Message :=
  [⟨6, 0, none, 0, true⟩,
   ⟨7, 86400000 * 5, none, 0, true⟩,
   ⟨8, 86400000 * 5 + 1000, none, 0, false⟩,
   ⟨9, 86400000 * 5 + 2000, none, 0, true⟩]

/-- A raw 18-column database row for the `from_row` witness: column 0 is
the id, column 3 the `from_me` flag, column 13 the timestamp, column 16
the type code and column 17 the text. -/
def sampleRow : List models.RowVal :=
  [.int 7, .null, .null, .int 1, .null, .null, .null, .null, .null, .null,
   .null, .null, .null, .int 123456, .null, .null, .int 0, .str "oi"]

/-! Theorems. -/

/-- C5: for every non-empty message sequence, the two counts returned by
`messages_by_sender` (messages from self and messages from the
counterpart) sum to the value returned by `total_messages`. -/
theorem messages_by_sender_sums_to_total (msgs : List Message)
    (h : msgs ≠ []) :
    (messages_by_sender msgs).1 + (messages_by_sender msgs).2 =
      total_messages msgs := by
  simp only [messages_by_sender, total_messages]
  have hle := List.countP_le_length (fun m => m.from_me) (l := msgs)
  omega

/-- Witness for C5 at the two-message scenario sequence. -/
theorem messages_by_sender_sums_to_total_witness :
    (messages_by_sender [sampleMsg1, sampleMsg2]).1 +
        (messages_by_sender [sampleMsg1, sampleMsg2]).2 =
      total_messages [sampleMsg1, sampleMsg2] :=
  messages_by_sender_sums_to_total [sampleMsg1, sampleMsg2] (by decide)

/-- Bound used by C6: for a single message, the six mutually exclusive
media-type indicators sum to at most one. -/
theorem media_indicators_le_one (m : Message) :
    ((if (m.message_type = 1 || m.message_type = 42 : Bool) then 1 else 0) +
     (if (m.message_type = 20 : Bool) then 1 else 0) +
     (if (m.message_type = 2 : Bool) then 1 else 0) +
     (if (m.message_type = 3 : Bool) then 1 else 0) +
     (if (m.message_type = 90 : Bool) then 1 else 0) +
     (if (m.message_type = 5 || m.message_type = 16 : Bool) then 1 else 0) : Nat)
      ≤ 1 := by
  simp only [Bool.or_eq_true, decide_eq_true_eq]
  split_ifs <;> omega

/-- C6: each media-type metric counts exactly the records whose type code
lies in its fixed code set, and the sum of the six mutually exclusive
media counts is at most `total_messages`. -/
theorem media_type_counts_spec (msgs : List Message) :
    photo_messages_count msgs =
      msgs.countP (fun m => m.message_type ∈ ([1, 42] : List Nat)) ∧
    sticker_messages_count msgs =
      msgs.countP (fun m => m.message_type ∈ ([20] : List Nat)) ∧
    audio_messages_count msgs =
      msgs.countP (fun m => m.message_type ∈ ([2] : List Nat)) ∧
    video_messages_count msgs =
      msgs.countP (fun m => m.message_type ∈ ([3] : List Nat)) ∧
    call_count msgs =
      msgs.countP (fun m => m.message_type ∈ ([90] : List Nat)) ∧
    location_shared_count msgs =
      msgs.countP (fun m => m.message_type ∈ ([5, 16] : List Nat)) ∧
    photo_messages_count msgs + sticker_messages_count msgs +
        audio_messages_count msgs + video_messages_count msgs +
        call_count msgs + location_shared_count msgs ≤
      total_messages msgs := by
  refine ⟨?_, ?_, ?_, ?_, ?_, ?_, ?_⟩
  · exact List.countP_congr (fun m _ => by simp)
  · exact List.countP_congr (fun m _ => by simp)
  · exact List.countP_congr (fun m _ => by simp)
  · exact List.countP_congr (fun m _ => by simp)
  · exact List.countP_congr (fun m _ => by simp)
  · exact List.countP_congr (fun m _ => by simp)
  · unfold photo_messages_count sticker_messages_count audio_messages_count
      video_messages_count call_count location_shared_count total_messages
    induction msgs with
    | nil => simp
    | cons m rest ih =>
        simp only [List.countP_cons, List.length_cons]
        have := media_indicators_le_one m
        omega

/-- C8: `good_morning_night_messages` is a pair of message-level counts
(each message contributes at most one to each bucket, so each count is
bounded by the total), the morning count counting the messages whose text
the morning pattern matches and the night count those the night pattern
matches; on the scenario sequence `["Bom dia!", "Boa noite"]` it returns
`(1, 1)`. -/
theorem good_morning_night_messages_spec (msgs : List Message) :
    good_morning_night_messages msgs =
      (msgs.countP matchesMorning, msgs.countP matchesNight) ∧
    (good_morning_night_messages msgs).1 ≤ total_messages msgs ∧
    (good_morning_night_messages msgs).2 ≤ total_messages msgs ∧
    good_morning_night_messages [sampleMsg1, sampleMsg2] = (1, 1) := by
  refine ⟨rfl, ?_, ?_, by decide⟩
  · exact List.countP_le_length matchesMorning
  · exact List.countP_le_length matchesNight

/-- C3: on the empty message sequence, every metric operation of the
analyzer returns its defined zero/empty/null default — no division by
zero and no out-of-bounds access occurs, for any choice of the
stop-word/keyword vocabularies and of the top-N parameters. -/
theorem empty_sequence_all_metrics_default (connectors love_words
    insult_words : List String) (num_words top_n : Nat) :
    total_messages [] = 0 ∧
    messages_by_sender [] = (0, 0) ∧
    average_messages_per_day [] = (0, 0, 0) ∧
    day_with_most_messages [] = none ∧
    day_with_least_messages [] = none ∧
    most_common_words connectors num_words [] = [] ∧
    total_words_sent [] = 0 ∧
    messages_per_hour [] = [] ∧
    number_of_emojis [] = 0 ∧
    most_used_emojis top_n [] = [] ∧
    photo_messages_count [] = 0 ∧
    sticker_messages_count [] = 0 ∧
    audio_messages_count [] = 0 ∧
    video_messages_count [] = 0 ∧
    call_count [] = 0 ∧
    location_shared_count [] = 0 ∧
    good_morning_night_messages [] = (0, 0) ∧
    average_response_time [] = (0, 0, 0) ∧
    love_words_count love_words [] = [] ∧
    insult_words_count insult_words [] = [] ∧
    monthly_frequency_variation [] = [] ∧
    daily_frequency_variation [] = [] ∧
    weekday_frequency_variation [] = [] := by
  refine ⟨rfl, rfl, rfl, rfl, rfl, ?_, rfl, rfl, rfl, ?_, rfl, rfl, rfl, rfl,
    rfl, rfl, rfl, rfl, rfl, rfl, rfl, rfl, rfl⟩
  · simp [most_common_words, tally, sortByCountDesc]
  · simp [most_used_emojis, extractedEmojis, tally, sortByCountDesc]

/-- C10: `Message.from_row` maps the fixed row positions 0, 13, 17, 16
and 3 to the id, timestamp, text, type and `from_me` fields, the
constructor coerces the `from_me` value to a boolean via Python
truthiness, and in particular the integers 1 and 0 coerce to `true` and
`false`. -/
theorem from_row_position_mapping (row : List models.RowVal)
    (h : 17 < row.length) :
    models.Message.from_row row =
      some { message_id := row.getD 0 .null,
             timestamp := row.getD 13 .null,
             text_data := row.getD 17 .null,
             message_type := row.getD 16 .null,
             from_me := (row.getD 3 .null).truthy } ∧
    (∀ a b c d v, (models.Message.make a b c d v).from_me = v.truthy) ∧
    models.RowVal.truthy (.int 1) = true ∧
    models.RowVal.truthy (.int 0) = false := by
  refine ⟨?_, fun a b c d v => rfl, rfl, rfl⟩
  unfold models.Message.from_row
  rw [dif_pos h]
  have h0 := List.getD_eq_get row models.RowVal.null (n := 0) (by omega)
  have h3 := List.getD_eq_get row models.RowVal.null (n := 3) (by omega)
  have h13 := List.getD_eq_get row models.RowVal.null (n := 13) (by omega)
  have h16 := List.getD_eq_get row models.RowVal.null (n := 16) (by omega)
  have h17 := List.getD_eq_get row models.RowVal.null (n := 17) (by omega)
  rw [h0, h3, h13, h16, h17]
  rfl

/-- Witness for C10 at a concrete 18-column row. -/
theorem from_row_position_mapping_witness :
    models.Message.from_row sampleRow =
      some { message_id := .int 7, timestamp := .int 123456,
             text_data := .str "oi", message_type := .int 0,
             from_me := true } :=
  ((from_row_position_mapping sampleRow (by decide)).1).trans (by decide)

/-- The consecutive pairs of a list, indexed: pair `i` is
`(msgs[i], msgs[i+1])`. -/
theorem consecutivePairs_eq_range (msgs : List Message) :
    consecutivePairs msgs =
      (List.range (msgs.length - 1)).map
        (fun i => (msgs.getD i default, msgs.getD (i + 1) default)) := by
  induction msgs with
  | nil => rfl
  | cons m rest ih =>
      cases rest with
      | nil => rfl
      | cons r rs =>
          have hstep : consecutivePairs (m :: r :: rs) =
              (m, r) :: consecutivePairs (r :: rs) := rfl
          rw [hstep, ih]
          have hlen : (m :: r :: rs).length - 1 = ((r :: rs).length - 1) + 1 := by
            simp
          rw [hlen, List.range_succ_eq_map, List.map_cons, List.map_map]
          simp [Function.comp_def, List.getD_cons_succ, List.getD_cons_zero]

/-- C1: `average_response_time` walks the sequence in order; for every
message after the first, the elapsed seconds since the immediately
preceding message (regardless of its sender) is attributed to the "me"
bucket when the current message is from self and to the "them" bucket
otherwise; each reported average is the attributed sum over the
attributed count, `0` for an empty bucket. On the scenario
`[{t = 0, from_self}, {t = 60000, from them}]` the 60-second gap goes to
"them": the triple is `(60, 0, 60)`, i.e. "me" is `0` and "them" `60`. -/
theorem average_response_time_gap_attribution (msgs : List Message) :
    average_response_time msgs =
      (avgOrZero (specAllGaps msgs), avgOrZero (specMyGaps msgs),
        avgOrZero (specTheirGaps msgs)) ∧
    average_response_time [sampleMsg1, sampleMsg2] = (60, 0, 60) := by
  constructor
  · simp only [average_response_time, consecutivePairs_eq_range, specAllGaps,
      specMyGaps, specTheirGaps, List.map_map, List.filter_map,
      Function.comp_def, pairGapSeconds, specGapSeconds]
    rfl
  · simp [average_response_time, consecutivePairs, pairGapSeconds, avgOrZero,
      sampleMsg1, sampleMsg2]
    norm_num

/-- `getLastD` returns the default or an element of the list. -/
theorem getLastD_self_or_mem {α : Type} :
    ∀ (l : List α) (d : α), l.getLastD d = d ∨ l.getLastD d ∈ l
  | [], _ => Or.inl rfl
  | a :: l, d => by
      have hc : (a :: l).getLastD d = l.getLastD a := List.getLastD_cons d a l
      rcases getLastD_self_or_mem l a with h | h
      · exact Or.inr (by rw [hc, h]; exact List.mem_cons_self a l)
      · exact Or.inr (by rw [hc]; exact List.mem_cons_of_mem a h)

/-- C2: for a non-empty sequence whose timestamps are non-decreasing (the
ordering contract of the data source), `average_messages_per_day` divides
the total count and each per-sender count by the number of elapsed days
between the first and the last timestamp, floored, with a minimum
denominator of one day. -/
theorem average_messages_per_day_spec (msgs : List Message) (h1 : msgs ≠ [])
    (h2 : msgs.Pairwise (fun a b => a.timestamp ≤ b.timestamp)) :
    average_messages_per_day msgs =
      ((total_messages msgs : ℚ) /
          ((max 1 (Int.fdiv ((msgs.getLastD default).timestamp -
            (msgs.headD default).timestamp) 86400000) : Int) : ℚ),
        (msgs.countP (fun m => m.from_me) : ℚ) /
          ((max 1 (Int.fdiv ((msgs.getLastD default).timestamp -
            (msgs.headD default).timestamp) 86400000) : Int) : ℚ),
        (msgs.countP (fun m => !m.from_me) : ℚ) /
          ((max 1 (Int.fdiv ((msgs.getLastD default).timestamp -
            (msgs.headD default).timestamp) 86400000) : Int) : ℚ)) := by
  cases msgs with
  | nil => exact absurd rfl h1
  | cons first rest =>
      have hts : first.timestamp ≤ (rest.getLastD first).timestamp := by
        rcases getLastD_self_or_mem rest first with h | h
        · rw [h]
        · exact (List.pairwise_cons.mp h2).1 _ h
      have hdnn : 0 ≤ Int.fdiv ((rest.getLastD first).timestamp -
          first.timestamp) 86400000 :=
        Int.fdiv_nonneg (by omega) (by norm_num)
      have hmax : (if Int.fdiv ((rest.getLastD first).timestamp -
            first.timestamp) 86400000 = 0 then (1 : Int)
          else Int.fdiv ((rest.getLastD first).timestamp -
            first.timestamp) 86400000) =
          max 1 (Int.fdiv ((rest.getLastD first).timestamp -
            first.timestamp) 86400000) := by
        split <;> omega
      have hcount := List.length_eq_countP_add_countP
        (fun m => m.from_me) (first :: rest)
      simp only [decide_not, Bool.decide_coe] at hcount
      have hcast : ((first :: rest).length : ℚ) =
          ((first :: rest).countP (fun m => m.from_me) : ℚ) +
            ((first :: rest).countP (fun m => !m.from_me) : ℚ) := by
        exact_mod_cast congrArg (Nat.cast (R := ℚ)) hcount
      simp only [average_messages_per_day, total_messages, List.headD_cons,
        List.getLastD_cons, hmax]
      refine congrArg₂ Prod.mk ?_ (congrArg₂ Prod.mk ?_ ?_)
      · rfl
      · rfl
      · have hnum : ((first :: rest).length : ℚ) -
            ((first :: rest).countP (fun m => m.from_me) : ℚ) =
            ((first :: rest).countP (fun m => !m.from_me) : ℚ) := by
          linarith [hcast]
        rw [hnum]

/-- Witness for C2 at the two-message scenario sequence: two messages one
minute apart on the same day give a one-day denominator and averages
`(2, 1, 1)`. -/
theorem average_messages_per_day_spec_witness :
    average_messages_per_day [sampleMsg1, sampleMsg2] = (2, 1, 1) := by
  have h := average_messages_per_day_spec [sampleMsg1, sampleMsg2]
    (by decide) (by decide)
  rw [h]
  have hf : Int.fdiv ((([sampleMsg1, sampleMsg2].getLastD default).timestamp -
      ([sampleMsg1, sampleMsg2].headD default).timestamp)) 86400000 = 0 := by
    decide
  rw [hf]
  norm_num [total_messages, sampleMsg1, sampleMsg2]

/-- The running minimum of the `min(..., key=...)` fold is the start
element or an element of the folded list. -/
theorem foldl_minBy_self_or_mem {α : Type} (rest : List (α × Nat)) :
    ∀ p : α × Nat,
      rest.foldl (fun best q => if q.2 < best.2 then q else best) p = p ∨
        rest.foldl (fun best q => if q.2 < best.2 then q else best) p ∈ rest := by
  induction rest with
  | nil => exact fun p => Or.inl rfl
  | cons q qs ih =>
      intro p
      simp only [List.foldl_cons]
      by_cases hq : q.2 < p.2
      · rw [if_pos hq]
        rcases ih q with h | h
        · exact Or.inr (by rw [h]; exact List.mem_cons_self q qs)
        · exact Or.inr (List.mem_cons_of_mem q h)
      · rw [if_neg hq]
        rcases ih p with h | h
        · exact Or.inl h
        · exact Or.inr (List.mem_cons_of_mem q h)

/-- The running minimum of the `min(..., key=...)` fold is bounded by the
start element's count and by every folded element's count. -/
theorem foldl_minBy_le {α : Type} (rest : List (α × Nat)) :
    ∀ p : α × Nat,
      (rest.foldl (fun best q => if q.2 < best.2 then q else best) p).2 ≤ p.2 ∧
        ∀ q ∈ rest,
          (rest.foldl (fun best q => if q.2 < best.2 then q else best) p).2 ≤
            q.2 := by
  induction rest with
  | nil => exact fun p => ⟨le_refl _, by simp⟩
  | cons q qs ih =>
      intro p
      simp only [List.foldl_cons]
      by_cases hq : q.2 < p.2
      · rw [if_pos hq]
        obtain ⟨h1, h2⟩ := ih q
        refine ⟨le_trans h1 (le_of_lt hq), fun r hr => ?_⟩
        rcases List.mem_cons.mp hr with h | h
        · rw [h]; exact h1
        · exact h2 r h
      · rw [if_neg hq]
        obtain ⟨h1, h2⟩ := ih p
        refine ⟨h1, fun r hr => ?_⟩
        rcases List.mem_cons.mp hr with h | h
        · rw [h]; exact le_trans h1 (le_of_not_lt hq)
        · exact h2 r h

/-- C4: `day_with_least_messages` returns `none` exactly when no day
bucket survives the `{0, 2}` exclusion filter (in particular on the empty
sequence), and otherwise returns a surviving `(date, count)` bucket of
minimal count. -/
theorem day_with_least_messages_spec (msgs : List Message) :
    (day_with_least_messages msgs = none ↔ survivingDayBuckets msgs = []) ∧
    (∀ d c, day_with_least_messages msgs = some (d, c) →
      (d, c) ∈ survivingDayBuckets msgs ∧
        ∀ p ∈ survivingDayBuckets msgs, c ≤ p.2) := by
  have heq : day_with_least_messages msgs =
      minByCount (survivingDayBuckets msgs) := rfl
  rw [heq]
  cases hf : survivingDayBuckets msgs with
  | nil => exact ⟨by simp [minByCount], by simp [minByCount]⟩
  | cons p rest =>
      constructor
      · simp [minByCount]
      · intro d c hdc
        simp only [minByCount, Option.some.injEq] at hdc
        obtain ⟨h1, h2⟩ := foldl_minBy_le rest p
        rcases foldl_minBy_self_or_mem rest p with h | h
        · have hp : p = (d, c) := by rw [← h, hdc]
          refine ⟨by rw [← hp]; exact List.mem_cons_self p rest,
            fun q hq => ?_⟩
          rcases List.mem_cons.mp hq with hh | hh
          · rw [hh, hp]
          · have hle := h2 q hh
            rw [hdc] at hle
            exact hle
        · rw [hdc] at h h1 h2
          refine ⟨List.mem_cons_of_mem p h, fun q hq => ?_⟩
          rcases List.mem_cons.mp hq with hh | hh
          · rw [hh]; exact h1
          · exact h2 q hh

/-- Witness for C4 at a four-message sequence over two days (counts 1 and
3, both surviving the filter): the reported bucket has count 1, which is
minimal among the surviving buckets. -/
theorem day_with_least_messages_spec_witness :
    ((1970, 1, 1), 1) ∈ survivingDayBuckets sampleWeekMsgs ∧
      ∀ p ∈ survivingDayBuckets sampleWeekMsgs, 1 ≤ p.2 :=
  (day_with_least_messages_spec sampleWeekMsgs).2 (1970, 1, 1) 1 (by decide)

/-- Summing a mapped value over a filtered list equals summing the value
guarded by the filter predicate over the whole list. -/
theorem sum_map_filter {α : Type} (p : α → Bool) (f : α → Nat) (l : List α) :
    ((l.filter p).map f).sum = (l.map (fun x => if p x then f x else 0)).sum := by
  induction l with
  | nil => rfl
  | cons x xs ih =>
      simp only [List.filter_cons, List.map_cons, List.sum_cons]
      by_cases hx : p x
      · rw [if_pos hx]
        simp only [List.map_cons, List.sum_cons]
        rw [ih]
        simp [hx]
      · rw [if_neg hx, ih]
        simp [hx]

/-- Per-message form of the emoji count: the guarded count the source
computes equals the spec-side count of the optional payload. -/
theorem specEmojiCount_eq (m : Message) :
    (if hasTextData m then (emojiFindall m).length else 0) =
      specEmojiCountOfText m.text_data := by
  cases htd : m.text_data with
  | none => simp [hasTextData, htd, specEmojiCountOfText]
  | some s =>
      by_cases hs : s = ""
      · simp [hasTextData, htd, hs, specEmojiCountOfText, emojiFindall, textOf]
      · simp [hasTextData, htd, hs, specEmojiCountOfText, emojiFindall, textOf]

/-- C7: `number_of_emojis` totals, over all messages, the codepoints in
the supplementary range U+10000–U+10FFFF of each text payload, with null
and empty payloads contributing nothing; when every text codepoint is
below U+10000 nothing at all is counted; and on the single message
`"I love you ❤️😀"` the result is `1` (the BMP heart is not counted). -/
theorem number_of_emojis_spec (msgs : List Message) :
    number_of_emojis msgs =
      (msgs.map (fun m => specEmojiCountOfText m.text_data)).sum ∧
    ((∀ m ∈ msgs, ∀ c ∈ (textOf m).toList, c.toNat < 0x10000) →
      number_of_emojis msgs = 0) ∧
    number_of_emojis [sampleEmojiMsg] = 1 := by
  have hmain : number_of_emojis msgs =
      (msgs.map (fun m => specEmojiCountOfText m.text_data)).sum := by
    unfold number_of_emojis
    rw [sum_map_filter hasTextData (fun m => (emojiFindall m).length) msgs]
    exact congrArg List.sum
      (List.map_congr_left (fun m _ => specEmojiCount_eq m))
  refine ⟨hmain, ?_, by decide⟩
  intro hbmp
  rw [hmain]
  apply List.sum_eq_zero
  intro x hx
  obtain ⟨m, hm, rfl⟩ := List.mem_map.mp hx
  cases htd : m.text_data with
  | none => simp [specEmojiCountOfText, htd]
  | some s =>
      have hnil : s.toList.filter isEmojiChar = [] := by
        apply List.filter_eq_nil_iff.mpr
        intro c hc
        have hlt : c.toNat < 0x10000 := by
          apply hbmp m hm c
          simp only [textOf, htd, Option.getD_some]
          exact hc
        simp only [isEmojiChar]
        simp only [Bool.and_eq_true, decide_eq_true_eq, not_and, not_le]
        omega
      show (s.toList.filter isEmojiChar).length = 0
      rw [hnil]
      rfl

/-- Witness for C7's vanishing clause at a message whose text is entirely
in the Basic Multilingual Plane. -/
theorem number_of_emojis_spec_witness :
    number_of_emojis [sampleBmpMsg] = 0 :=
  (number_of_emojis_spec [sampleBmpMsg]).2.1 (by decide)

/-- Bumping the count of a key that no entry carries changes nothing. -/
theorem map_bump_eq_self {α : Type} [DecidableEq α]
    (acc : List (α × Nat)) (x : α) (h : ∀ p ∈ acc, p.1 ≠ x) :
    acc.map (fun p => if p.1 = x then (p.1, p.2 + 1) else p) = acc := by
  induction acc with
  | nil => rfl
  | cons p ps ih =>
      simp only [List.map_cons]
      rw [if_neg (h p (List.mem_cons_self p ps)),
        ih (fun q hq => h q (List.mem_cons_of_mem p hq))]

/-- Bumping a key that exactly one entry carries (keys are distinct) adds
one to the total count. -/
theorem sumCounts_bump {α : Type} [DecidableEq α]
    (acc : List (α × Nat)) (x : α) (hnd : (acc.map Prod.fst).Nodup)
    (hmem : acc.any (fun p => p.1 = x)) :
    sumCounts (acc.map (fun p => if p.1 = x then (p.1, p.2 + 1) else p)) =
      sumCounts acc + 1 := by
  induction acc with
  | nil => simp at hmem
  | cons p ps ih =>
      simp only [List.map_cons, List.nodup_cons] at hnd
      obtain ⟨hpx, hnd'⟩ := hnd
      by_cases hp : p.1 = x
      · rw [List.map_cons, if_pos hp]
        have hrest : ps.map (fun q => if q.1 = x then (q.1, q.2 + 1) else q) =
            ps := by
          apply map_bump_eq_self
          intro q hq hqx
          exact hpx (by rw [hp, ← hqx]; exact List.mem_map_of_mem Prod.fst hq)
        rw [hrest]
        simp only [sumCounts, List.map_cons, List.sum_cons]
        omega
      · rw [List.map_cons, if_neg hp]
        have hmem' : ps.any (fun q => q.1 = x) := by
          simp only [List.any_cons] at hmem
          simpa [hp] using hmem
        simp only [sumCounts, List.map_cons, List.sum_cons]
        have hih := ih hnd' hmem'
        simp only [sumCounts] at hih
        omega

/-- A `Counter` step keeps the keys distinct. -/
theorem tallyStep_nodup {α : Type} [DecidableEq α]
    (acc : List (α × Nat)) (x : α) (hnd : (acc.map Prod.fst).Nodup) :
    ((tallyStep acc x).map Prod.fst).Nodup := by
  unfold tallyStep
  by_cases h : acc.any (fun p => p.1 = x)
  · rw [if_pos h]
    have hkeys : (acc.map (fun p => if p.1 = x then (p.1, p.2 + 1) else p)).map
        Prod.fst = acc.map Prod.fst := by
      rw [List.map_map]
      exact List.map_congr_left
        (fun p _ => by by_cases hp : p.1 = x <;> simp [hp])
    rw [hkeys]
    exact hnd
  · rw [if_neg h, List.map_append]
    rw [List.nodup_append]
    refine ⟨hnd, by simp, ?_⟩
    intro a ha hax
    simp only [List.any_eq_true, not_exists, not_and] at h
    obtain ⟨p, hp, rfl⟩ := List.mem_map.mp ha
    simp only [List.map_cons, List.map_nil, List.mem_singleton] at hax
    exact absurd (by simpa using hax) (by simpa using h p hp)

/-- A `Counter` step adds exactly one to the total count. -/
theorem sumCounts_tallyStep {α : Type} [DecidableEq α]
    (acc : List (α × Nat)) (x : α) (hnd : (acc.map Prod.fst).Nodup) :
    sumCounts (tallyStep acc x) = sumCounts acc + 1 := by
  unfold tallyStep
  by_cases h : acc.any (fun p => p.1 = x)
  · rw [if_pos h]
    exact sumCounts_bump acc x hnd h
  · rw [if_neg h]
    simp [sumCounts]

/-- Folding the `Counter` steps over a list adds its length to the total
count, as long as the accumulator's keys are distinct. -/
theorem sumCounts_foldl_tally {α : Type} [DecidableEq α] :
    ∀ (xs : List α) (acc : List (α × Nat)), (acc.map Prod.fst).Nodup →
      sumCounts (xs.foldl tallyStep acc) = sumCounts acc + xs.length
  | [], _, _ => by simp
  | x :: xs, acc, hnd => by
      simp only [List.foldl_cons, List.length_cons]
      rw [sumCounts_foldl_tally xs (tallyStep acc x) (tallyStep_nodup acc x hnd),
        sumCounts_tallyStep acc x hnd]
      omega

/-- The counts of a `Counter` sum to the length of the counted list. -/
theorem sumCounts_tally {α : Type} [DecidableEq α] (xs : List α) :
    sumCounts (tally xs) = xs.length := by
  have h := sumCounts_foldl_tally xs [] (by simp)
  simpa [tally, sumCounts] using h

/-- Stable descending insertion preserves the total count. -/
theorem sumCounts_insertByCountDesc {α : Type} (x : α × Nat)
    (l : List (α × Nat)) :
    sumCounts (insertByCountDesc x l) = x.2 + sumCounts l := by
  induction l with
  | nil => simp [insertByCountDesc, sumCounts]
  | cons y ys ih =>
      unfold insertByCountDesc
      by_cases h : y.2 ≤ x.2
      · rw [if_pos h]
        simp [sumCounts]
      · rw [if_neg h]
        simp only [sumCounts, List.map_cons, List.sum_cons] at ih ⊢
        omega

/-- The stable descending sort preserves the total count. -/
theorem sumCounts_sortByCountDesc {α : Type} (l : List (α × Nat)) :
    sumCounts (sortByCountDesc l) = sumCounts l := by
  induction l with
  | nil => rfl
  | cons x xs ih =>
      unfold sortByCountDesc
      rw [sumCounts_insertByCountDesc, ih]
      simp [sumCounts]

/-- Stable descending insertion grows the length by one. -/
theorem length_insertByCountDesc {α : Type} (x : α × Nat)
    (l : List (α × Nat)) :
    (insertByCountDesc x l).length = l.length + 1 := by
  induction l with
  | nil => rfl
  | cons y ys ih =>
      unfold insertByCountDesc
      by_cases h : y.2 ≤ x.2
      · rw [if_pos h]; rfl
      · rw [if_neg h]
        simp only [List.length_cons, ih]

/-- The stable descending sort preserves the length. -/
theorem length_sortByCountDesc {α : Type} (l : List (α × Nat)) :
    (sortByCountDesc l).length = l.length := by
  induction l with
  | nil => rfl
  | cons x xs ih =>
      unfold sortByCountDesc
      rw [length_insertByCountDesc, ih]
      rfl

/-- `number_of_emojis` equals the length of the extracted emoji list of
`most_used_emojis`. -/
theorem number_of_emojis_eq_length_extracted (msgs : List Message) :
    number_of_emojis msgs = (extractedEmojis msgs).length := by
  unfold number_of_emojis extractedEmojis
  rw [List.length_flatMap]
  rfl

/-- C9: the two emoji metrics use the same extraction, so whenever
`top_n` covers every distinct emoji (no truncation), the per-emoji counts
reported by `most_used_emojis` sum to `number_of_emojis`. -/
theorem most_used_emojis_total_eq_number (msgs : List Message) (top_n : Nat)
    (h : (tally (extractedEmojis msgs)).length ≤ top_n) :
    sumCounts (most_used_emojis top_n msgs) = number_of_emojis msgs := by
  unfold most_used_emojis
  rw [List.take_of_length_le (by rw [length_sortByCountDesc]; exact h)]
  rw [sumCounts_sortByCountDesc, sumCounts_tally,
    number_of_emojis_eq_length_extracted]

/-- Witness for C9 at a message with three emoji occurrences of two
distinct emojis, with `top_n = 15` covering both. -/
theorem most_used_emojis_total_eq_number_witness :
    sumCounts (most_used_emojis 15 [sampleRepeatEmojiMsg]) =
      number_of_emojis [sampleRepeatEmojiMsg] :=
  most_used_emojis_total_eq_number [sampleRepeatEmojiMsg] 15 (by decide)
